import Mathlib

set_option maxRecDepth 100000

/-!
Verification development for the tunnel-bootstrap service in `main.go`.

Go strings are modelled as byte lists (`List Nat`, each element intended
to lie below 256); all source literals are ASCII, so `strToBytes` agrees
with their UTF-8 bytes.  The file system is modelled as a partial map
from full paths to file contents.
-/

/-- Bytes of an ASCII string literal (used only on ASCII literals, where
`Char.toNat` coincides with the UTF-8 byte). -/
def strToBytes (s : String) : List Nat := s.toList.map Char.toNat

/-- Model of the `Config` struct populated by `loadConfig` (main.go:25-42).
`ArgoPort`/`CFPort` are Go `int`s, modelled as unbounded `Int`. -/
structure Config where
  UploadURL : List Nat
  ProjectURL : List Nat
  AutoAccess : Bool
  FilePath : List Nat
  SubPath : List Nat
  Port : List Nat
  UUID : List Nat
  NezhaServer : List Nat
  NezhaPort : List Nat
  NezhaKey : List Nat
  ArgoDomain : List Nat
  ArgoAuth : List Nat
  ArgoPort : Int
  CFIP : List Nat
  CFPort : Int
  Name : List Nat

/-- Whether `needle` occurs as a contiguous substring of the byte string,
the model of Go `strings.Contains`. -/
def hasSub (needle : List Nat) : List Nat → Bool
  | [] => needle.isPrefixOf []
  | b :: rest => needle.isPrefixOf (b :: rest) || hasSub needle rest

/-- Membership of a byte in the regexp character class `[A-Z0-9a-z=]`
(main.go:599). -/
def isTokenByte (b : Nat) : Bool :=
  (65 ≤ b && b ≤ 90) || (48 ≤ b && b ≤ 57) || (97 ≤ b && b ≤ 122) || b == 61

/-- Whether the credential matches the anchored regexp
`^[A-Z0-9a-z=]{120,250}$` of main.go:599: the whole string is 120-250
bytes, all drawn from the class. -/
def tokenShape (s : List Nat) : Bool :=
  decide (120 ≤ s.length) && decide (s.length ≤ 250) && s.all isTokenByte

/-- The three tunnel-client connection modes selected in `startServer`
(main.go:599-607). -/
inductive TunnelMode where
  | token
  | configFile
  | quick
deriving DecidableEq

/-- Bytes of the literal `"TunnelSecret"` tested by `strings.Contains`
in main.go:601. -/
def tunnelSecretMarker : List Nat := strToBytes ("TunnelSecret")

/-- Credential classification performed inline in `startServer`
(main.go:599-607): the token regexp is tried first, then the
`TunnelSecret` containment test, and otherwise quick-tunnel mode. -/
def classifyArgoAuth (auth : List Nat) : TunnelMode :=
  if tokenShape auth then TunnelMode.token
  else if hasSub tunnelSecretMarker auth then TunnelMode.configFile
  else TunnelMode.quick

/-- A credential that contains `TunnelSecret` yet classifies as token mode:
`"TunnelSecret"` padded with 108 `'A'` bytes is 120 bytes of
`[A-Z0-9a-z=]`, so the token branch fires first.  This refutes C1's
clause that any credential containing `TunnelSecret` classifies as
config-file mode. -/
theorem c1_counterexample :
    hasSub tunnelSecretMarker (tunnelSecretMarker ++ List.replicate 108 65) = true ∧
    classifyArgoAuth (tunnelSecretMarker ++ List.replicate 108 65) ≠ TunnelMode.configFile ∧
    classifyArgoAuth (tunnelSecretMarker ++ List.replicate 108 65) = TunnelMode.token := by
  refine ⟨by decide, by decide, by decide⟩

/-- C1 (amended): credential classification is exhaustive and mutually
exclusive; a whole-string match of the 120-250 char `[A-Z0-9a-z=]` pattern
classifies as token mode; a credential containing `TunnelSecret` and not
matching the token pattern classifies as config-file mode; every other
credential (in particular every other non-empty one) classifies as
quick-tunnel mode.  Stated as an exact characterisation of each mode, so
exhaustiveness and mutual exclusivity follow. -/
theorem c1_classification (s : List Nat) :
    (classifyArgoAuth s = TunnelMode.token ↔ tokenShape s = true) ∧
    (classifyArgoAuth s = TunnelMode.configFile ↔
      (tokenShape s = false ∧ hasSub tunnelSecretMarker s = true)) ∧
    (classifyArgoAuth s = TunnelMode.quick ↔
      (tokenShape s = false ∧ hasSub tunnelSecretMarker s = false)) := by
  unfold classifyArgoAuth
  cases h1 : tokenShape s <;> cases h2 : hasSub tunnelSecretMarker s <;> simp

/-- Bytes of the capture-group suffix `trycloudflare.com` of the regexp
`https?://([^/]*trycloudflare\.com)/?` in main.go:681. -/
def tcSuffix : List Nat := strToBytes ("trycloudflare.com")

/-- Greedy search for the capture of `[^/]*trycloudflare\.com`: the largest
`k` not exceeding the given bound such that `trycloudflare.com` starts at
offset `k` of `r` (the bound is the length of the maximal `/`-free
prefix, so offsets up to `k` stay inside `[^/]*`). -/
def greedyCapture (r : List Nat) : Nat → Option Nat
  | 0 => if tcSuffix.isPrefixOf r then some 0 else none
  | k + 1 =>
    if tcSuffix.isPrefixOf (r.drop (k + 1)) then some (k + 1)
    else greedyCapture r k

/-- Attempt to match `https?://([^/]*trycloudflare\.com)/?` at the start of
`s`, returning the capture group.  The optional `s` after `http` is
deterministic (taking it and not taking it cannot both lead past `://`),
and the greedy `[^/]*` is resolved by `greedyCapture`; the trailing `/?`
never constrains the match. -/
def matchTCAt (s : List Nat) : Option (List Nat) :=
  if (strToBytes ("http")).isPrefixOf s then
    let r1 := s.drop 4
    let r2 := if r1.head? = some 115 then r1.drop 1 else r1
    if (strToBytes ("://")).isPrefixOf r2 then
      let r := r2.drop 3
      match greedyCapture r (r.takeWhile (fun b => b ≠ 47)).length with
      | some k => some (r.take k ++ tcSuffix)
      | none => none
    else none
  else none

/-- Leftmost match of the boot-log regexp: the capture group returned by
`FindStringSubmatch` in main.go:681-684 (`none` when the pattern does not
occur). -/
def findTC : List Nat → Option (List Nat)
  | [] => none
  | b :: rest =>
    match matchTCAt (b :: rest) with
    | some cap => some cap
    | none => findTC rest

/-- The polling loop of `extractDomains` (main.go:678-690): starting at
attempt index `i` with `fuel` attempts left, read the log file (`reads i`,
`none` modelling a read error such as a not-yet-created file), scan it,
and either return the captured domain or retry.  The second component
counts the attempts performed. -/
def pollCount (reads : Nat → Option (List Nat)) : Nat → Nat → Option (List Nat) × Nat
  | _, 0 => (none, 0)
  | i, fuel + 1 =>
    match reads i with
    | some content =>
      match findTC content with
      | some d => (some d, 1)
      | none => ((pollCount reads (i + 1) fuel).1, (pollCount reads (i + 1) fuel).2 + 1)
    | none => ((pollCount reads (i + 1) fuel).1, (pollCount reads (i + 1) fuel).2 + 1)

/-- Model of `extractDomains` (main.go:670-693): the fast path returns the
configured `ArgoDomain` without touching the log; the slow path polls the
log up to 30 times.  The result pairs the discovered domain (`none` for
the timeout error) with the number of log-read attempts performed. -/
def extractDomains (cfg : Config) (reads : Nat → Option (List Nat)) :
    Option (List Nat) × Nat :=
  if cfg.ArgoAuth ≠ [] ∧ cfg.ArgoDomain ≠ [] then (some cfg.ArgoDomain, 0)
  else pollCount reads 0 30

/-- Attempt `j` of the polling loop finds no domain: either the read fails
or the regexp does not match the content. -/
def attemptMisses (reads : Nat → Option (List Nat)) (j : Nat) : Prop :=
  ∀ c, reads j = some c → findTC c = none

theorem pollCount_all_miss (reads : Nat → Option (List Nat)) :
    ∀ fuel i, (∀ j, j < fuel → attemptMisses reads (i + j)) →
      pollCount reads i fuel = (none, fuel) := by
  intro fuel
  induction fuel with
  | zero => intro i _; rfl
  | succ n ih =>
    intro i h
    have h0 : attemptMisses reads i := by simpa using h 0 (Nat.succ_pos n)
    have hrest : ∀ j, j < n → attemptMisses reads (i + 1 + j) := by
      intro j hj
      have : i + 1 + j = i + (j + 1) := by omega
      rw [this]
      exact h (j + 1) (by omega)
    have hih := ih (i + 1) hrest
    cases hr : reads i with
    | none => simp [pollCount, hr, hih]
    | some c =>
      have hc : findTC c = none := h0 c hr
      simp [pollCount, hr, hc, hih]

theorem pollCount_hit (reads : Nat → Option (List Nat)) :
    ∀ fuel i k c d, k < fuel → (∀ j, j < k → attemptMisses reads (i + j)) →
      reads (i + k) = some c → findTC c = some d →
      pollCount reads i fuel = (some d, k + 1) := by
  intro fuel
  induction fuel with
  | zero => intro i k c d hk; exact absurd hk (Nat.not_lt_zero k)
  | succ n ih =>
    intro i k c d hk hmiss hr hd
    cases k with
    | zero =>
      rw [Nat.add_zero] at hr
      simp [pollCount, hr, hd]
    | succ m =>
      have h0 : attemptMisses reads i := by simpa using hmiss 0 (Nat.succ_pos m)
      have hrest : ∀ j, j < m → attemptMisses reads (i + 1 + j) := by
        intro j hj
        have : i + 1 + j = i + (j + 1) := by omega
        rw [this]
        exact hmiss (j + 1) (by omega)
      have hr' : reads (i + 1 + m) = some c := by
        have : i + 1 + m = i + (m + 1) := by omega
        rw [this]
        exact hr
      have hih := ih (i + 1) m c d (by omega) hrest hr' hd
      cases hri : reads i with
      | none => simp [pollCount, hri, hih]
      | some c0 =>
        have hc0 : findTC c0 = none := h0 c0 hri
        simp [pollCount, hri, hc0, hih]

/-- C2: on the slow path (fast-path condition fails), domain discovery
reads the log at most 30 times, tolerating failed reads; if every attempt
misses it returns the timeout error after exactly 30 attempts, and if
attempt `k` (the first to match) captures domain `d` via the boot-log
regexp it returns `d` after `k + 1 ≤ 30` attempts. -/
theorem c2_slow_path (cfg : Config) (reads : Nat → Option (List Nat))
    (hslow : ¬(cfg.ArgoAuth ≠ [] ∧ cfg.ArgoDomain ≠ [])) :
    ((∀ j, j < 30 → attemptMisses reads j) →
      extractDomains cfg reads = (none, 30)) ∧
    (∀ k c d, k < 30 → (∀ j, j < k → attemptMisses reads j) →
      reads k = some c → findTC c = some d →
      extractDomains cfg reads = (some d, k + 1)) := by
  constructor
  · intro h
    unfold extractDomains
    rw [if_neg hslow]
    exact pollCount_all_miss reads 30 0 (fun j hj => by simpa using h j hj)
  · intro k c d hk hmiss hr hd
    unfold extractDomains
    rw [if_neg hslow]
    exact pollCount_hit reads 30 0 k c d hk (fun j hj => by simpa using hmiss j hj)
      (by simpa using hr) hd

/-- Configuration holding exactly the `loadConfig` defaults of
main.go:44-63 (empty environment). -/
def baseConfig : Config :=
  { UploadURL := []
    ProjectURL := []
    AutoAccess := false
    FilePath := strToBytes ("./tmp")
    SubPath := strToBytes ("sub")
    Port := strToBytes ("3000")
    UUID := strToBytes ("ba1bea2a-cbb7-41bd-9333-6531ff8a5b31")
    NezhaServer := []
    NezhaPort := []
    NezhaKey := []
    ArgoDomain := []
    ArgoAuth := []
    ArgoPort := 8001
    CFIP := strToBytes ("linux.do")
    CFPort := 443
    Name := strToBytes ("encore.app") }

/-- Log sequence for the C2 witness: the file is unreadable on the first
two attempts and then contains a quick-tunnel banner. -/
def c2ReadsExample : Nat → Option (List Nat) := fun i =>
  if i = 2 then
    some (strToBytes ("INF Visit it at: https://abc-def.trycloudflare.com more text"))
  else none

theorem c2_witness :
    (¬(baseConfig.ArgoAuth ≠ [] ∧ baseConfig.ArgoDomain ≠ [])) ∧
    extractDomains baseConfig c2ReadsExample =
      (some (strToBytes ("abc-def.trycloudflare.com")), 3) := by
  refine ⟨by decide, ?_⟩
  exact (c2_slow_path baseConfig c2ReadsExample (by decide)).2 2
    (strToBytes ("INF Visit it at: https://abc-def.trycloudflare.com more text"))
    (strToBytes ("abc-def.trycloudflare.com"))
    (by omega)
    (fun j hj c hc => by
      have h2 : j ≠ 2 := by omega
      simp [c2ReadsExample, h2] at hc)
    (by decide) (by decide)

/-- C8: when both the tunnel hostname and the tunnel credential are
non-empty, domain discovery returns the configured hostname with zero
polling attempts, for every possible state of the log file (so the log is
never read). -/
theorem c8_fast_path (cfg : Config) (reads : Nat → Option (List Nat))
    (h1 : cfg.ArgoAuth ≠ []) (h2 : cfg.ArgoDomain ≠ []) :
    extractDomains cfg reads = (some cfg.ArgoDomain, 0) := by
  unfold extractDomains
  rw [if_pos ⟨h1, h2⟩]

def c8Cfg : Config :=
  { baseConfig with
    ArgoAuth := strToBytes ("sometoken")
    ArgoDomain := strToBytes ("example.org") }

theorem c8_witness :
    (c8Cfg.ArgoAuth ≠ [] ∧ c8Cfg.ArgoDomain ≠ []) ∧
    extractDomains c8Cfg (fun _ => none) =
      (some (strToBytes ("example.org")), 0) := by
  refine ⟨⟨by decide, by decide⟩, ?_⟩
  exact c8_fast_path c8Cfg (fun _ => none) (by decide) (by decide)

/-- Byte of the standard base64 alphabet for a six-bit value (the alphabet
used by Go's `base64.StdEncoding`): `A-Z`, `a-z`, `0-9`, `+`, `/`. -/
def alphaByte (s : Nat) : Nat :=
  if s < 26 then 65 + s
  else if s < 52 then 71 + s
  else if s < 62 then s - 4
  else if s = 62 then 43
  else 47

/-- Standard base64 encoding of a byte string with `=` (byte 61) padding,
the model of Go's `base64.StdEncoding.EncodeToString`. -/
def b64e : List Nat → List Nat
  | [] => []
  | [b0] => [alphaByte (b0 / 4), alphaByte (b0 % 4 * 16), 61, 61]
  | [b0, b1] =>
    [alphaByte (b0 / 4), alphaByte (b0 % 4 * 16 + b1 / 16), alphaByte (b1 % 16 * 4), 61]
  | b0 :: b1 :: b2 :: rest =>
    alphaByte (b0 / 4) :: alphaByte (b0 % 4 * 16 + b1 / 16) ::
      alphaByte (b1 % 16 * 4 + b2 / 64) :: alphaByte (b2 % 64) :: b64e rest

/-- Six-bit value of a base64 alphabet byte (`none` for bytes outside the
alphabet, including the padding byte). -/
def sextet (b : Nat) : Option Nat :=
  if 65 ≤ b ∧ b ≤ 90 then some (b - 65)
  else if 97 ≤ b ∧ b ≤ 122 then some (b - 71)
  else if 48 ≤ b ∧ b ≤ 57 then some (b + 4)
  else if b = 43 then some 62
  else if b = 47 then some 63
  else none

/-- Quad-wise base64 decoding: the input length must be a multiple of
four, padding may occur only in the final quad, and (like Go's default
`StdEncoding`) unused trailing bits of a padded quad are ignored rather
than rejected. -/
def b64dQuads : List Nat → Option (List Nat)
  | [] => some []
  | c0 :: c1 :: c2 :: c3 :: rest =>
    match sextet c0, sextet c1 with
    | some s0, some s1 =>
      if c2 = 61 then
        if c3 = 61 ∧ rest = [] then some [s0 * 4 + s1 / 16] else none
      else
        match sextet c2 with
        | some s2 =>
          if c3 = 61 then
            if rest = [] then some [s0 * 4 + s1 / 16, s1 % 16 * 16 + s2 / 4]
            else none
          else
            match sextet c3 with
            | some s3 =>
              (b64dQuads rest).map
                (fun t => (s0 * 4 + s1 / 16) :: (s1 % 16 * 16 + s2 / 4) :: (s2 % 4 * 64 + s3) :: t)
            | none => none
        | none => none
    | _, _ => none
  | _ => none

/-- Model of Go's `base64.StdEncoding.DecodeString`: newline bytes are
ignored wherever they occur, then the input is decoded quad-wise. -/
def b64dGo (input : List Nat) : Option (List Nat) :=
  b64dQuads (input.filter (fun b => b != 10 && b != 13))

theorem alphaByte_bounds (s : Nat) : 43 ≤ alphaByte s ∧ alphaByte s ≤ 122 := by
  unfold alphaByte
  split_ifs <;> omega

theorem alphaByte_ne_pad (s : Nat) : alphaByte s ≠ 61 := by
  unfold alphaByte
  split_ifs <;> omega

theorem sextet_alphaByte (s : Nat) (h : s < 64) : sextet (alphaByte s) = some s := by
  unfold sextet alphaByte
  split_ifs <;> first | (simp only [Option.some.injEq]; omega) | omega

theorem b64e_mem (l : List Nat) : ∀ b ∈ b64e l, 43 ≤ b ∧ b ≤ 122 := by
  induction l using b64e.induct with
  | case1 => intro b hb; simp [b64e] at hb
  | case2 b0 =>
    intro b hb
    simp [b64e] at hb
    rcases hb with rfl | rfl | rfl <;> first | omega | exact alphaByte_bounds _
  | case3 b0 b1 =>
    intro b hb
    simp [b64e] at hb
    rcases hb with rfl | rfl | rfl | rfl <;> first | omega | exact alphaByte_bounds _
  | case4 b0 b1 b2 rest ih =>
    intro b hb
    simp [b64e] at hb
    rcases hb with rfl | rfl | rfl | rfl | hb
    · exact alphaByte_bounds _
    · exact alphaByte_bounds _
    · exact alphaByte_bounds _
    · exact alphaByte_bounds _
    · exact ih b hb

theorem b64dQuads_b64e (l : List Nat) (h : ∀ b ∈ l, b < 256) :
    b64dQuads (b64e l) = some l := by
  induction l using b64e.induct with
  | case1 => rfl
  | case2 b0 =>
    have hb0 : b0 < 256 := h b0 (by simp)
    simp only [b64e]
    rw [b64dQuads]
    simp [sextet_alphaByte (b0 / 4) (by omega), sextet_alphaByte (b0 % 4 * 16) (by omega)]
    omega
  | case3 b0 b1 =>
    have hb0 : b0 < 256 := h b0 (by simp)
    have hb1 : b1 < 256 := h b1 (by simp)
    simp only [b64e]
    rw [b64dQuads]
    simp [sextet_alphaByte (b0 / 4) (by omega),
      sextet_alphaByte (b0 % 4 * 16 + b1 / 16) (by omega),
      sextet_alphaByte (b1 % 16 * 4) (by omega), alphaByte_ne_pad]
    constructor <;> omega
  | case4 b0 b1 b2 rest ih =>
    have hb0 : b0 < 256 := h b0 (by simp)
    have hb1 : b1 < 256 := h b1 (by simp)
    have hb2 : b2 < 256 := h b2 (by simp)
    have hrest := ih (fun b hb => h b (by simp [hb]))
    simp only [b64e]
    rw [b64dQuads]
    simp [sextet_alphaByte (b0 / 4) (by omega),
      sextet_alphaByte (b0 % 4 * 16 + b1 / 16) (by omega),
      sextet_alphaByte (b1 % 16 * 4 + b2 / 64) (by omega),
      sextet_alphaByte (b2 % 64) (by omega), alphaByte_ne_pad, hrest]
    refine ⟨by omega, by omega, by omega⟩

/-- Round trip of the Go base64 model: decoding an encoded byte string
recovers it exactly. -/
theorem b64_roundtrip (l : List Nat) (h : ∀ b ∈ l, b < 256) :
    b64dGo (b64e l) = some l := by
  unfold b64dGo
  have hf : (b64e l).filter (fun b => b != 10 && b != 13) = b64e l := by
    rw [List.filter_eq_self]
    intro b hb
    have := b64e_mem l b hb
    simp only [bne_iff_ne, Bool.and_eq_true, decide_eq_true_eq]
    omega
  rw [hf]
  exact b64dQuads_b64e l h

/-- File-system state: a partial map from full paths (byte strings) to
file contents. -/
abbrev FS := List Nat → Option (List Nat)

/-- Model of `filepath.Join(dir, name)` for the slash-free relative names
used by the program: `dir ++ "/" ++ name`. -/
def joinPath (dir name : List Nat) : List Nat := dir ++ [47] ++ name

def subTxtName : List Nat := strToBytes ("sub.txt")

/-- Model of a successful `os.Create`/`os.WriteFile`: the path now maps to
the new contents. -/
def updateFs (fs : FS) (p v : List Nat) : FS :=
  fun q => if q = p then some v else fs q

/-- Model of `os.Remove` with its error ignored: the path is absent
afterwards, whether or not it existed. -/
def removePath (fs : FS) (p : List Nat) : FS :=
  fun q => if q = p then none else fs q

def removeAll (fs : FS) : List (List Nat) → FS
  | [] => fs
  | p :: ps => removeAll (removePath fs p) ps

theorem removeAll_not_mem (ps : List (List Nat)) :
    ∀ (fs : FS) (q : List Nat), ¬ q ∈ ps → removeAll fs ps q = fs q := by
  induction ps with
  | nil => intro fs q _; rfl
  | cons p ps' ih =>
    intro fs q h
    simp only [List.mem_cons, not_or] at h
    show removeAll (removePath fs p) ps' q = fs q
    rw [ih (removePath fs p) q h.2]
    unfold removePath
    rw [if_neg h.1]

theorem removeAll_mem (ps : List (List Nat)) :
    ∀ (fs : FS) (q : List Nat), q ∈ ps → removeAll fs ps q = none := by
  induction ps with
  | nil => intro fs q h; simp at h
  | cons p ps' ih =>
    intro fs q h
    show removeAll (removePath fs p) ps' q = none
    by_cases hq : q ∈ ps'
    · exact ih _ q hq
    · have hqp : q = p := by
        rcases List.mem_cons.mp h with h1 | h2
        · exact h1
        · exact absurd h2 hq
      rw [removeAll_not_mem ps' _ q hq]
      unfold removePath
      rw [if_pos hqp]

/-- The five relative path names removed by `cleanupOldFiles`
(main.go:274-280), joined to the working directory. -/
def oldFilePaths (filePath : List Nat) : List (List Nat) :=
  [joinPath filePath (strToBytes ("web")), joinPath filePath (strToBytes ("bot")),
    joinPath filePath (strToBytes ("npm")), joinPath filePath subTxtName,
    joinPath filePath (strToBytes ("boot.log"))]

/-- Model of `cleanupOldFiles` (main.go:274-280). -/
def cleanupOldFiles (filePath : List Nat) (fs : FS) : FS :=
  removeAll fs (oldFilePaths filePath)

/-- The seven paths deleted by `cleanupTempFiles` (main.go:761-779). -/
def tempFilePaths (cfg : Config) : List (List Nat) :=
  [joinPath cfg.FilePath (strToBytes ("boot.log")),
    joinPath cfg.FilePath (strToBytes ("config.json")),
    joinPath cfg.FilePath (strToBytes ("list.txt")),
    joinPath cfg.FilePath (strToBytes ("npm")),
    joinPath cfg.FilePath (strToBytes ("web")),
    joinPath cfg.FilePath (strToBytes ("bot")),
    joinPath cfg.FilePath (strToBytes ("php"))]

/-- Model of `cleanupTempFiles` (main.go:761-779); the initial 15-second
sleep and the screen-clearing/log output have no file-system effect and
are not modelled. -/
def cleanupTempFiles (cfg : Config) (fs : FS) : FS :=
  removeAll fs (tempFilePaths cfg)

/-- The five scheme names of the node-matching regexp
`(vless|vmess|trojan|hysteria2|tuic)://` (main.go:114). -/
def supportedSchemes : List (List Nat) :=
  [strToBytes ("vless"), strToBytes ("vmess"), strToBytes ("trojan"),
    strToBytes ("hysteria2"), strToBytes ("tuic")]

/-- Embedding of `regexp.MatchString` with the node regexp: the pattern is
unanchored, so a line matches exactly when it contains one of the five
scheme names followed by `://`. -/
def nodeLineMatch (l : List Nat) : Bool :=
  supportedSchemes.any (fun s => hasSub (s ++ strToBytes ("://")) l)

/-- ASCII fast path of `strings.TrimSpace` (space, TAB, LF, VT, FF, CR);
the non-ASCII space runes NEL and NBSP are multi-byte and do not occur in
the program's data. -/
def isSpaceByte (b : Nat) : Bool :=
  b == 32 || b == 9 || b == 10 || b == 11 || b == 12 || b == 13

def trimSpace (l : List Nat) : List Nat :=
  ((l.dropWhile isSpaceByte).reverse.dropWhile isSpaceByte).reverse

/-- Model of `strings.Split(s, "\n")` over byte strings. -/
def splitNL : List Nat → List (List Nat)
  | [] => [[]]
  | b :: rest =>
    if b = 10 then [] :: splitNL rest
    else
      match splitNL rest with
      | l :: ls => (b :: l) :: ls
      | [] => [[b]]

theorem splitNL_no_nl (l : List Nat) (h : ¬ 10 ∈ l) : splitNL l = [l] := by
  induction l with
  | nil => rfl
  | cons b rest ih =>
    simp only [List.mem_cons, not_or] at h
    show (if b = 10 then [] :: splitNL rest else
      match splitNL rest with
      | l :: ls => (b :: l) :: ls
      | [] => [[b]]) = [b :: rest]
    rw [if_neg (fun hb => h.1 hb.symm), ih h.2]

theorem splitNL_append (l1 l2 : List Nat) (h : ¬ 10 ∈ l1) :
    splitNL (l1 ++ 10 :: l2) = l1 :: splitNL l2 := by
  induction l1 with
  | nil => simp [splitNL]
  | cons b rest ih =>
    simp only [List.mem_cons, not_or] at h
    rw [List.cons_append]
    show (if b = 10 then [] :: splitNL (rest ++ 10 :: l2) else
      match splitNL (rest ++ 10 :: l2) with
      | l :: ls => (b :: l) :: ls
      | [] => [[b]]) = (b :: rest) :: splitNL l2
    rw [if_neg (fun hb => h.1 hb.symm), ih h.2]

/-- Model of `deleteNodes` (main.go:92-138).  The first component is the
declared `error` result (`some ()` standing for a non-nil error, which the
source never produces); the second is the node list posted to the
aggregator's delete endpoint (`[]` when no request is made).  A `none`
file-system lookup covers both the `os.Stat`-not-exist and the
`os.ReadFile`-error early returns; `postOutcome` is the outcome of
`http.Post`, which the source ignores on every path. -/
def deleteNodes (cfg : Config) (fs : FS) (_postOutcome : Option Unit) :
    Option Unit × List (List Nat) :=
  if cfg.UploadURL = [] then (none, [])
  else
    match fs (joinPath cfg.FilePath subTxtName) with
    | none => (none, [])
    | some content =>
      match b64dGo content with
      | none => (none, [])
      | some decoded =>
        let nodes := (splitNL decoded).filterMap
          (fun line => if nodeLineMatch line then some (trimSpace line) else none)
        if nodes = [] then (none, [])
        else (none, nodes)

/-- C9: the declared error result of `deleteNodes` is `nil` for every
configuration, file-system state and HTTP outcome: every return path of
the function returns a nil error. -/
theorem c9_deleteNodes_never_errors (cfg : Config) (fs : FS) (post : Option Unit) :
    (deleteNodes cfg fs post).1 = none := by
  unfold deleteNodes
  repeat' split
  all_goals try rfl
  all_goals dsimp only
  all_goals split <;> rfl

/-- The node regexp supports five scheme markers, not four: each of the
five schemes, alone in a line (the line contains none of the other four
markers), matches.  Together with `supportedSchemes.Nodup` this refutes
C5's count of "exactly four supported scheme prefixes". -/
theorem c5_counterexample :
    supportedSchemes.length = 5 ∧ supportedSchemes.Nodup ∧
    (∀ s ∈ supportedSchemes,
      nodeLineMatch (s ++ strToBytes ("://x")) = true ∧
      ∀ t ∈ supportedSchemes, t ≠ s →
        hasSub (t ++ strToBytes ("://")) (s ++ strToBytes ("://x")) = false) := by
  decide

/-- C5 (amended): a NodeEntry line matches one of exactly five supported
scheme markers (vless, vmess, trojan, hysteria2, tuic); given a persisted
artifact decoding to two matching lines and one non-matching line, the
delete step extracts exactly the two matching lines, whitespace-trimmed
and in order, and submits exactly those two nodes with a nil error. -/
theorem c5_delete_two_nodes (cfg : Config) (fs : FS) (post : Option Unit)
    (l1 l2 l3 : List Nat)
    (hurl : ¬ cfg.UploadURL = [])
    (hb : ∀ b ∈ l1 ++ 10 :: (l2 ++ 10 :: l3), b < 256)
    (hfs : fs (joinPath cfg.FilePath subTxtName) =
      some (b64e (l1 ++ 10 :: (l2 ++ 10 :: l3))))
    (h1 : nodeLineMatch l1 = true) (h2 : nodeLineMatch l2 = false)
    (h3 : nodeLineMatch l3 = true)
    (hn1 : ¬ 10 ∈ l1) (hn2 : ¬ 10 ∈ l2) (hn3 : ¬ 10 ∈ l3) :
    deleteNodes cfg fs post = (none, [trimSpace l1, trimSpace l3]) := by
  unfold deleteNodes
  rw [if_neg hurl, hfs]
  dsimp only
  rw [b64_roundtrip _ hb]
  dsimp only
  rw [splitNL_append l1 _ hn1, splitNL_append l2 _ hn2, splitNL_no_nl l3 hn3]
  simp [h1, h2, h3]

def emptyFS : FS := fun _ => none

def c5Cfg : Config :=
  { baseConfig with UploadURL := strToBytes ("http://agg.example") }

def c5L1 : List Nat := strToBytes ("vless://node-one  ")

def c5L2 : List Nat := strToBytes ("not a node line")

def c5L3 : List Nat := strToBytes ("  trojan://node-three")

def c5FS : FS :=
  updateFs emptyFS (joinPath c5Cfg.FilePath subTxtName)
    (b64e (c5L1 ++ 10 :: (c5L2 ++ 10 :: c5L3)))

theorem c5_witness :
    (¬ c5Cfg.UploadURL = [] ∧ nodeLineMatch c5L1 = true ∧
      nodeLineMatch c5L2 = false ∧ nodeLineMatch c5L3 = true) ∧
    deleteNodes c5Cfg c5FS none = (none, [trimSpace c5L1, trimSpace c5L3]) := by
  refine ⟨⟨by decide, by decide, by decide, by decide⟩, ?_⟩
  exact c5_delete_two_nodes c5Cfg c5FS none c5L1 c5L2 c5L3 (by decide) (by decide)
    (by decide) (by decide) (by decide) (by decide) (by decide) (by decide) (by decide)

def fullFS : FS := fun _ => some []

/-- The deferred cleanup removes seven paths, not six: with every path
present beforehand, the seven pairwise-distinct paths of the fixed list —
including `php` — are all present before and absent after the call, so
seven files change, refuting C4's count of "exactly six fixed transient
paths". -/
theorem c4_counterexample :
    (tempFilePaths baseConfig).length = 7 ∧ (tempFilePaths baseConfig).Nodup ∧
    (∀ p ∈ tempFilePaths baseConfig,
      fullFS p = some [] ∧ cleanupTempFiles baseConfig fullFS p = none) := by
  decide

/-- C4 (amended): the deferred cleanup, when invoked, removes exactly
seven fixed transient paths under the working directory (boot.log,
config.json, list.txt, npm, web, bot, php; each removal succeeding or
silently ignored when the file is absent) and leaves every other file
unchanged. -/
theorem c4_cleanup (cfg : Config) (fs : FS) :
    (tempFilePaths cfg).length = 7 ∧
    (∀ p ∈ tempFilePaths cfg, cleanupTempFiles cfg fs p = none) ∧
    (∀ q, ¬ q ∈ tempFilePaths cfg → cleanupTempFiles cfg fs q = fs q) := by
  refine ⟨rfl, ?_, ?_⟩
  · intro p hp
    exact removeAll_mem _ fs p hp
  · intro q hq
    exact removeAll_not_mem _ fs q hq

theorem c4_witness :
    (joinPath baseConfig.FilePath (strToBytes ("php")) ∈ tempFilePaths baseConfig) ∧
    (¬ joinPath baseConfig.FilePath (strToBytes ("other.txt")) ∈ tempFilePaths baseConfig) ∧
    cleanupTempFiles baseConfig fullFS (joinPath baseConfig.FilePath (strToBytes ("php"))) = none ∧
    cleanupTempFiles baseConfig fullFS (joinPath baseConfig.FilePath (strToBytes ("other.txt"))) = some [] := by
  refine ⟨by decide, by decide,
    (c4_cleanup baseConfig fullFS).2.1 _ (by decide), ?_⟩
  exact (c4_cleanup baseConfig fullFS).2.2
    (joinPath baseConfig.FilePath (strToBytes ("other.txt"))) (by decide)

/-- The startup prefix of `main` (main.go:826-841): directory creation is
not modelled; `deleteNodes` runs first and — as every one of its return
paths leaves the file system untouched — the state passed on to
`cleanupOldFiles` is the initial one; provisioning and config generation
run only afterwards. -/
def mainStartup (cfg : Config) (fs : FS) (post : Option Unit) :
    (Option Unit × List (List Nat)) × FS :=
  (deleteNodes cfg fs post, cleanupOldFiles cfg.FilePath fs)

/-- C10: at process start, right after `deleteNodes` and before any
provisioning, the cleanup unconditionally removes exactly the five paths
web, bot, npm, sub.txt, boot.log under the working directory and touches
no other file; in particular the prior subscription artifact `sub.txt` is
erased whatever the outcome of the aggregator deletion. -/
theorem c10_startup_cleanup (cfg : Config) (fs : FS) (post : Option Unit) :
    (oldFilePaths cfg.FilePath).length = 5 ∧
    (∀ p ∈ oldFilePaths cfg.FilePath, (mainStartup cfg fs post).2 p = none) ∧
    (∀ q, ¬ q ∈ oldFilePaths cfg.FilePath → (mainStartup cfg fs post).2 q = fs q) ∧
    (mainStartup cfg fs post).2 (joinPath cfg.FilePath subTxtName) = none := by
  refine ⟨rfl, fun p hp => removeAll_mem _ fs p hp,
    fun q hq => removeAll_not_mem _ fs q hq, ?_⟩
  exact removeAll_mem _ fs _ (by simp [oldFilePaths])

theorem c10_witness :
    (joinPath baseConfig.FilePath subTxtName ∈ oldFilePaths baseConfig.FilePath) ∧
    (¬ joinPath baseConfig.FilePath (strToBytes ("config.json")) ∈
      oldFilePaths baseConfig.FilePath) ∧
    (mainStartup baseConfig fullFS none).2 (joinPath baseConfig.FilePath subTxtName) = none ∧
    (mainStartup baseConfig fullFS none).2
      (joinPath baseConfig.FilePath (strToBytes ("config.json"))) = some [] := by
  refine ⟨by decide, by decide,
    (c10_startup_cleanup baseConfig fullFS none).2.2.2, ?_⟩
  exact (c10_startup_cleanup baseConfig fullFS none).2.2.1
    (joinPath baseConfig.FilePath (strToBytes ("config.json"))) (by decide)

/-- Model of `getSystemArchitecture` (main.go:303-309), with
`runtime.GOARCH` as a parameter. -/
def getSystemArchitecture (goarch : List Nat) : List Nat :=
  if goarch = strToBytes ("arm") ∨ goarch = strToBytes ("arm64") ∨
      goarch = strToBytes ("aarch64") then
    strToBytes ("arm")
  else strToBytes ("amd")

/-- The two baseline (fileName, fileUrl) pairs of
`getFilesForArchitecture` (main.go:320-336). -/
def baselineFiles (architecture : List Nat) : List (List Nat × List Nat) :=
  if architecture = strToBytes ("arm") then
    [(strToBytes ("web"), strToBytes ("https://arm64.ssss.nyc.mn/web")),
      (strToBytes ("bot"), strToBytes ("https://arm64.ssss.nyc.mn/2go"))]
  else
    [(strToBytes ("web"), strToBytes ("https://amd64.ssss.nyc.mn/web")),
      (strToBytes ("bot"), strToBytes ("https://amd64.ssss.nyc.mn/2go"))]

/-- Download URL of the monitoring agent (`npm`) per architecture
(main.go:341-344). -/
def agentUrl (architecture : List Nat) : List Nat :=
  if architecture = strToBytes ("arm") then strToBytes ("https://arm64.ssss.nyc.mn/agent")
  else strToBytes ("https://amd64.ssss.nyc.mn/agent")

/-- Download URL of the minimal agent (`php`) per architecture
(main.go:350-353). -/
def v1Url (architecture : List Nat) : List Nat :=
  if architecture = strToBytes ("arm") then strToBytes ("https://arm64.ssss.nyc.mn/v1")
  else strToBytes ("https://amd64.ssss.nyc.mn/v1")

/-- Model of `getFilesForArchitecture` (main.go:311-362).  The source
re-reads the environment via `loadConfig()`; that configuration is the
`cfg` parameter here.  In push mode (server, key and port configured) the
agent binary is prepended, in pull mode (no port) the minimal-agent
binary, otherwise nothing. -/
def getFilesForArchitecture (architecture : List Nat) (cfg : Config) :
    List (List Nat × List Nat) :=
  if ¬ cfg.NezhaServer = [] ∧ ¬ cfg.NezhaKey = [] then
    if ¬ cfg.NezhaPort = [] then
      (strToBytes ("npm"), agentUrl architecture) :: baselineFiles architecture
    else
      (strToBytes ("php"), v1Url architecture) :: baselineFiles architecture
  else baselineFiles architecture

/-- C7: for every architecture class the download set is deterministic
given the monitoring-agent mode: the two baseline binaries (web, bot)
plus exactly one monitoring binary — the agent (`npm`) in push mode, the
minimal agent (`php`) in pull mode, never both — and no monitoring binary
when the agent is absent. -/
theorem c7_provisioning (arch : List Nat) (cfg : Config) :
    (¬ cfg.NezhaServer = [] → ¬ cfg.NezhaKey = [] → ¬ cfg.NezhaPort = [] →
      getFilesForArchitecture arch cfg =
        [(strToBytes ("npm"), agentUrl arch)] ++ baselineFiles arch) ∧
    (¬ cfg.NezhaServer = [] → ¬ cfg.NezhaKey = [] → cfg.NezhaPort = [] →
      getFilesForArchitecture arch cfg =
        [(strToBytes ("php"), v1Url arch)] ++ baselineFiles arch) ∧
    ((cfg.NezhaServer = [] ∨ cfg.NezhaKey = []) →
      getFilesForArchitecture arch cfg = baselineFiles arch) ∧
    (baselineFiles arch).length = 2 ∧
    (baselineFiles arch).map Prod.fst = [strToBytes ("web"), strToBytes ("bot")] := by
  refine ⟨?_, ?_, ?_, ?_, ?_⟩
  · intro h1 h2 h3
    unfold getFilesForArchitecture
    rw [if_pos ⟨h1, h2⟩, if_pos h3]
    rfl
  · intro h1 h2 h3
    unfold getFilesForArchitecture
    rw [if_pos ⟨h1, h2⟩, if_neg (fun hc => hc h3)]
    rfl
  · intro h
    unfold getFilesForArchitecture
    rw [if_neg (fun hc => by rcases h with h | h; exact hc.1 h; exact hc.2 h)]
  · unfold baselineFiles
    split <;> rfl
  · unfold baselineFiles
    split <;> rfl

def c7Cfg : Config :=
  { baseConfig with
    NezhaServer := strToBytes ("nz.example")
    NezhaKey := strToBytes ("secretkey")
    NezhaPort := strToBytes ("5555") }

theorem c7_witness :
    (¬ c7Cfg.NezhaServer = [] ∧ ¬ c7Cfg.NezhaKey = [] ∧ ¬ c7Cfg.NezhaPort = []) ∧
    getFilesForArchitecture (strToBytes ("arm")) c7Cfg =
      [(strToBytes ("npm"), agentUrl (strToBytes ("arm")))] ++
        baselineFiles (strToBytes ("arm")) := by
  refine ⟨⟨by decide, by decide, by decide⟩, ?_⟩
  exact (c7_provisioning (strToBytes ("arm")) c7Cfg).1 (by decide) (by decide) (by decide)

/-- Decimal digit bytes of a natural number, most significant first (the
digits Go's `%d` and JSON number formatting produce).  The structural
`fuel` argument bounds the recursion depth; `n + 1` steps always
suffice since the argument shrinks by a factor of ten per step. -/
def natToDecGo (fuel : Nat) (n : Nat) : List Nat :=
  match fuel with
  | 0 => []
  | fuel + 1 =>
    if n < 10 then [48 + n]
    else natToDecGo fuel (n / 10) ++ [48 + n % 10]

def natToDec (n : Nat) : List Nat := natToDecGo (n + 1) n

/-- Decimal byte rendering of a Go `int` (a `-` byte before the digits of
the absolute value when negative). -/
def intToDec (i : Int) : List Nat :=
  if i < 0 then 45 :: natToDec i.natAbs else natToDec i.toNat

theorem natToDecGo_mem (fuel : Nat) :
    ∀ n, ∀ b ∈ natToDecGo fuel n, 48 ≤ b ∧ b ≤ 57 := by
  induction fuel with
  | zero => intro n b hb; simp [natToDecGo] at hb
  | succ f ih =>
    intro n b hb
    simp only [natToDecGo] at hb
    split at hb
    · simp at hb
      omega
    · simp at hb
      rcases hb with hb | hb
      · exact ih (n / 10) b hb
      · omega

theorem natToDec_mem (n : Nat) : ∀ b ∈ natToDec n, 48 ≤ b ∧ b ≤ 57 :=
  natToDecGo_mem (n + 1) n

theorem intToDec_mem (i : Int) : ∀ b ∈ intToDec i, 45 ≤ b ∧ b ≤ 57 := by
  unfold intToDec
  split
  · intro b hb
    simp at hb
    rcases hb with hb | hb
    · omega
    · have := natToDec_mem i.natAbs b hb
      omega
  · intro b hb
    have := natToDec_mem i.toNat b hb
    omega

theorem intToDec_lt256 (i : Int) : ∀ b ∈ intToDec i, b < 256 := by
  intro b hb
  have := intToDec_mem i b hb
  omega

theorem intToDec_no_nl (i : Int) : ¬ 10 ∈ intToDec i := by
  intro h
  have := intToDec_mem i 10 h
  omega

theorem b64e_lt256 (l : List Nat) : ∀ b ∈ b64e l, b < 256 := by
  intro b hb
  have := b64e_mem l b hb
  omega

theorem b64e_no_nl (l : List Nat) : ¬ 10 ∈ b64e l := by
  intro h
  have := b64e_mem l 10 h
  omega

/-- Lowercase hex digit byte, as produced by Go's JSON `\u00XX` escapes. -/
def hexDigitByte (n : Nat) : Nat := if n < 10 then 48 + n else 87 + n

/-- Byte-wise model of Go `encoding/json`'s default (HTML-escaping) string
encoder: `"`, `\`, LF, CR and TAB get two-byte escapes, other control
bytes and `<`, `>`, `&` get `\u00XX`, everything else passes through
(multi-byte UTF-8 runes are passed through byte by byte; the
` `/` ` special case is not modelled). -/
def escByte (b : Nat) : List Nat :=
  if b = 34 then [92, 34]
  else if b = 92 then [92, 92]
  else if b = 10 then [92, 110]
  else if b = 13 then [92, 114]
  else if b = 9 then [92, 116]
  else if b < 32 then [92, 117, 48, 48, hexDigitByte (b / 16), hexDigitByte (b % 16)]
  else if b = 60 ∨ b = 62 ∨ b = 38 then
    [92, 117, 48, 48, hexDigitByte (b / 16), hexDigitByte (b % 16)]
  else [b]

/-- A JSON string literal: quote, escaped bytes, quote. -/
def goJsonStr (s : List Nat) : List Nat := [34] ++ (s.map escByte).flatten ++ [34]

/-- The `json.Marshal` output for the vmess map of main.go:712-727: Go
serializes map keys in sorted order (add, aid, alpn, host, id, net, path,
port, ps, scy, sni, tls, type, v), string values through the escaping
encoder and the int port as a JSON number.  Brace bytes are 123 and
125. -/
def vmessJson (cfg : Config) (argoDomain isp : List Nat) : List Nat :=
  [123] ++ strToBytes ("\"add\":") ++ goJsonStr cfg.CFIP ++
    strToBytes (",\"aid\":\"0\",\"alpn\":\"\",\"host\":") ++ goJsonStr argoDomain ++
    strToBytes (",\"id\":") ++ goJsonStr cfg.UUID ++
    strToBytes (",\"net\":\"ws\",\"path\":\"/vmess-argo?ed=2048\",\"port\":") ++
    intToDec cfg.CFPort ++
    strToBytes (",\"ps\":") ++ goJsonStr (cfg.Name ++ [45] ++ isp) ++
    strToBytes (",\"scy\":\"none\",\"sni\":") ++ goJsonStr argoDomain ++
    strToBytes (",\"tls\":\"tls\",\"type\":\"none\",\"v\":\"2\"") ++ [125]

/-- The vless line of the subscription text (main.go:736,742): byte 64 is
`@`, 58 is `:`, 45 is `-`; `%%2F` etc. of the format string are the
literal `%2F` escapes. -/
def vlessLinkLine (cfg : Config) (argoDomain isp : List Nat) : List Nat :=
  strToBytes ("vless://") ++ cfg.UUID ++ [64] ++ cfg.CFIP ++ [58] ++
    intToDec cfg.CFPort ++
    strToBytes ("?encryption=none&security=tls&sni=") ++ argoDomain ++
    strToBytes ("&type=ws&host=") ++ argoDomain ++
    strToBytes ("&path=%2Fvless-argo%3Fed%3D2048#") ++ cfg.Name ++ [45] ++ isp

/-- The vmess line (main.go:738,743): scheme plus the base64 of the JSON
blob. -/
def vmessLinkLine (cfg : Config) (argoDomain isp : List Nat) : List Nat :=
  strToBytes ("vmess://") ++ b64e (vmessJson cfg argoDomain isp)

/-- The trojan line (main.go:740,744). -/
def trojanLinkLine (cfg : Config) (argoDomain isp : List Nat) : List Nat :=
  strToBytes ("trojan://") ++ cfg.UUID ++ [64] ++ cfg.CFIP ++ [58] ++
    intToDec cfg.CFPort ++
    strToBytes ("?security=tls&sni=") ++ argoDomain ++
    strToBytes ("&type=ws&host=") ++ argoDomain ++
    strToBytes ("&path=%2Ftrojan-argo%3Fed%3D2048#") ++ cfg.Name ++ [45] ++ isp

/-- The full subscription text of main.go:735-745: the raw-string
template starts and ends with a newline and separates the three link
lines by blank lines. -/
def subContent (cfg : Config) (argoDomain isp : List Nat) : List Nat :=
  [10] ++ vlessLinkLine cfg argoDomain isp ++ [10, 10] ++
    vmessLinkLine cfg argoDomain isp ++ [10, 10] ++
    trojanLinkLine cfg argoDomain isp ++ [10]

/-- Outcome of the external network-identity lookup in `generateLinks`
(main.go:697-706): the `curl` subprocess failing, `json.Unmarshal`
failing, or a parsed meta object whose `country` and `asOrganization`
render to the given byte strings. -/
inductive IspLookup where
  | cmdError
  | parseError
  | ok (country asOrg : List Nat)

/-- Model of `strings.ReplaceAll(isp, " ", "_")` (main.go:709). -/
def replaceSpaces (s : List Nat) : List Nat :=
  s.map (fun b => if b = 32 then 95 else b)

/-- Model of `generateLinks` (main.go:696-758).  The first component is
the declared error result (`some ()` for non-nil); the second the
file-system state after the call.  Both lookup failures return before any
write; on success the encoded subscription text is written to `sub.txt`
(the `WriteFile` is modelled as succeeding; `uploadNodes` performs no
local file-system writes and the `json.Marshal` of the literal vmess map
cannot fail). -/
def generateLinks (cfg : Config) (argoDomain : List Nat) (lk : IspLookup) (fs : FS) :
    Option Unit × FS :=
  match lk with
  | IspLookup.cmdError => (some (), fs)
  | IspLookup.parseError => (some (), fs)
  | IspLookup.ok country asOrg =>
    let isp := replaceSpaces (country ++ [45] ++ asOrg)
    let enc := b64e (subContent cfg argoDomain isp)
    (none, updateFs fs (joinPath cfg.FilePath subTxtName) enc)

/-- C6: when the network-identity lookup fails — the lookup command errors
or its output fails to parse — link generation returns an error and the
file-system state is returned unchanged (every path, in particular the
subscription artifact, keeps its previous content); no fallback-labelled
link is produced. -/
theorem c6_lookup_failure (cfg : Config) (argoDomain : List Nat) (fs : FS) :
    generateLinks cfg argoDomain IspLookup.cmdError fs = (some (), fs) ∧
    generateLinks cfg argoDomain IspLookup.parseError fs = (some (), fs) :=
  ⟨rfl, rfl⟩

/-- The non-empty lines of a byte text, in order. -/
def nonEmptyLines (s : List Nat) : List (List Nat) :=
  (splitNL s).filter (fun l => !l.isEmpty)

theorem replaceSpaces_mem (s : List Nat) : ∀ b ∈ replaceSpaces s, b = 95 ∨ b ∈ s := by
  intro b hb
  rw [replaceSpaces, List.mem_map] at hb
  obtain ⟨a, ha, hab⟩ := hb
  by_cases h32 : a = 32
  · left
    rw [← hab, if_pos h32]
  · right
    rw [← hab, if_neg h32]
    exact ha

theorem ne_nil_of_starts {p l : List Nat} (h : p <+: l) (hp : ¬ p = []) : ¬ l = [] := by
  intro hl
  subst hl
  exact hp (List.prefix_nil.mp h)

theorem isEmpty_false_of_ne {l : List Nat} (h : ¬ l = []) : l.isEmpty = false := by
  cases l with
  | nil => exact absurd rfl h
  | cons a t => rfl

theorem vless_starts (cfg : Config) (argoDomain isp : List Nat) :
    strToBytes ("vless://") <+: vlessLinkLine cfg argoDomain isp := by
  unfold vlessLinkLine
  simp only [List.append_assoc]
  exact List.prefix_append _ _

theorem vmess_starts (cfg : Config) (argoDomain isp : List Nat) :
    strToBytes ("vmess://") <+: vmessLinkLine cfg argoDomain isp := by
  unfold vmessLinkLine
  exact List.prefix_append _ _

theorem trojan_starts (cfg : Config) (argoDomain isp : List Nat) :
    strToBytes ("trojan://") <+: trojanLinkLine cfg argoDomain isp := by
  unfold trojanLinkLine
  simp only [List.append_assoc]
  exact List.prefix_append _ _

set_option maxHeartbeats 2000000 in
theorem subContent_lt256 (cfg : Config) (argoDomain isp : List Nat)
    (hu256 : ∀ b ∈ cfg.UUID, b < 256) (hc256 : ∀ b ∈ cfg.CFIP, b < 256)
    (hn256 : ∀ b ∈ cfg.Name, b < 256) (hd256 : ∀ b ∈ argoDomain, b < 256)
    (hisp256 : ∀ b ∈ isp, b < 256) :
    ∀ b ∈ subContent cfg argoDomain isp, b < 256 := by
  unfold subContent vlessLinkLine vmessLinkLine trojanLinkLine
  intro b hb
  simp only [List.mem_append, List.mem_cons, List.not_mem_nil, or_false] at hb
  casesm* _ ∨ _
  all_goals try rename_i hb
  all_goals first
    | exact hu256 b hb
    | exact hc256 b hb
    | exact hn256 b hb
    | exact hd256 b hb
    | exact hisp256 b hb
    | exact intToDec_lt256 cfg.CFPort b hb
    | exact b64e_lt256 _ b hb
    | omega
    | (revert b; decide)

set_option maxHeartbeats 2000000 in
theorem vlessLinkLine_no_nl (cfg : Config) (argoDomain isp : List Nat)
    (hu : ¬ 10 ∈ cfg.UUID) (hc : ¬ 10 ∈ cfg.CFIP) (hn : ¬ 10 ∈ cfg.Name)
    (hd : ¬ 10 ∈ argoDomain) (hispnl : ¬ 10 ∈ isp) :
    ¬ 10 ∈ vlessLinkLine cfg argoDomain isp := by
  unfold vlessLinkLine
  intro h
  simp only [List.mem_append, List.mem_cons, List.not_mem_nil, or_false] at h
  casesm* _ ∨ _
  all_goals try rename_i h
  all_goals first
    | exact hu h
    | exact hc h
    | exact hn h
    | exact hd h
    | exact hispnl h
    | exact intToDec_no_nl cfg.CFPort h
    | omega
    | (revert h; decide)

theorem vmessLinkLine_no_nl (cfg : Config) (argoDomain isp : List Nat) :
    ¬ 10 ∈ vmessLinkLine cfg argoDomain isp := by
  unfold vmessLinkLine
  intro h
  rcases List.mem_append.mp h with h | h
  · revert h
    decide
  · exact b64e_no_nl _ h

set_option maxHeartbeats 2000000 in
theorem trojanLinkLine_no_nl (cfg : Config) (argoDomain isp : List Nat)
    (hu : ¬ 10 ∈ cfg.UUID) (hc : ¬ 10 ∈ cfg.CFIP) (hn : ¬ 10 ∈ cfg.Name)
    (hd : ¬ 10 ∈ argoDomain) (hispnl : ¬ 10 ∈ isp) :
    ¬ 10 ∈ trojanLinkLine cfg argoDomain isp := by
  unfold trojanLinkLine
  intro h
  simp only [List.mem_append, List.mem_cons, List.not_mem_nil, or_false] at h
  casesm* _ ∨ _
  all_goals try rename_i h
  all_goals first
    | exact hu h
    | exact hc h
    | exact hn h
    | exact hd h
    | exact hispnl h
    | exact intToDec_no_nl cfg.CFPort h
    | omega
    | (revert h; decide)

theorem splitNL_three (A B C : List Nat) (hA : ¬ 10 ∈ A) (hB : ¬ 10 ∈ B)
    (hC : ¬ 10 ∈ C) :
    splitNL ([10] ++ A ++ [10, 10] ++ B ++ [10, 10] ++ C ++ [10]) =
      [[], A, [], B, [], C, []] := by
  have key : ∀ rest : List Nat, splitNL (10 :: rest) = [] :: splitNL rest := by
    intro rest
    rfl
  have e : [10] ++ A ++ [10, 10] ++ B ++ [10, 10] ++ C ++ [10] =
      10 :: (A ++ 10 :: (10 :: (B ++ 10 :: (10 :: (C ++ 10 :: ([] : List Nat)))))) := by
    simp
  rw [e, key, splitNL_append A _ hA, key, splitNL_append B _ hB, key,
    splitNL_append C _ hC]
  rfl

theorem nonEmptyLines_subContent (cfg : Config) (argoDomain isp : List Nat)
    (hA : ¬ 10 ∈ vlessLinkLine cfg argoDomain isp)
    (hB : ¬ 10 ∈ vmessLinkLine cfg argoDomain isp)
    (hC : ¬ 10 ∈ trojanLinkLine cfg argoDomain isp) :
    nonEmptyLines (subContent cfg argoDomain isp) =
      [vlessLinkLine cfg argoDomain isp, vmessLinkLine cfg argoDomain isp,
        trojanLinkLine cfg argoDomain isp] := by
  unfold nonEmptyLines subContent
  rw [splitNL_three _ _ _ hA hB hC]
  have hA' : (vlessLinkLine cfg argoDomain isp).isEmpty = false :=
    isEmpty_false_of_ne (ne_nil_of_starts (vless_starts cfg argoDomain isp) (by decide))
  have hB' : (vmessLinkLine cfg argoDomain isp).isEmpty = false :=
    isEmpty_false_of_ne (ne_nil_of_starts (vmess_starts cfg argoDomain isp) (by decide))
  have hC' : (trojanLinkLine cfg argoDomain isp).isEmpty = false :=
    isEmpty_false_of_ne (ne_nil_of_starts (trojan_starts cfg argoDomain isp) (by decide))
  simp [List.filter, hA', hB', hC']

/-- C3 (amended): for every configuration and discovered domain whose
embedded string fields (identity token, edge IP, display name, domain,
and the looked-up country/organization strings) are newline-free byte
strings, the persisted subscription artifact decodes to a text with
exactly three non-empty lines, starting with `vless://`, `vmess://` and
`trojan://` respectively (the blank separator lines do not count). -/
theorem c3_artifact (cfg : Config) (argoDomain country asOrg : List Nat) (fs : FS)
    (hu256 : ∀ b ∈ cfg.UUID, b < 256) (hc256 : ∀ b ∈ cfg.CFIP, b < 256)
    (hn256 : ∀ b ∈ cfg.Name, b < 256) (hd256 : ∀ b ∈ argoDomain, b < 256)
    (hco256 : ∀ b ∈ country, b < 256) (hao256 : ∀ b ∈ asOrg, b < 256)
    (hu : ¬ 10 ∈ cfg.UUID) (hc : ¬ 10 ∈ cfg.CFIP) (hn : ¬ 10 ∈ cfg.Name)
    (hd : ¬ 10 ∈ argoDomain) (hco : ¬ 10 ∈ country) (hao : ¬ 10 ∈ asOrg) :
    ∃ enc sub,
      (generateLinks cfg argoDomain (IspLookup.ok country asOrg) fs).2
          (joinPath cfg.FilePath subTxtName) = some enc ∧
      b64dGo enc = some sub ∧
      (nonEmptyLines sub).length = 3 ∧
      ∀ l ∈ nonEmptyLines sub,
        strToBytes ("vless://") <+: l ∨ strToBytes ("vmess://") <+: l ∨
          strToBytes ("trojan://") <+: l := by
  have hisp256 : ∀ b ∈ replaceSpaces (country ++ [45] ++ asOrg), b < 256 := by
    intro b hb
    rcases replaceSpaces_mem _ b hb with h95 | hmem
    · omega
    · rcases List.mem_append.mp hmem with hm | hm
      · rcases List.mem_append.mp hm with hm2 | hm2
        · exact hco256 b hm2
        · simp at hm2
          omega
      · exact hao256 b hm
  have hispnl : ¬ 10 ∈ replaceSpaces (country ++ [45] ++ asOrg) := by
    intro h10
    rcases replaceSpaces_mem _ 10 h10 with h95 | hmem
    · omega
    · rcases List.mem_append.mp hmem with hm | hm
      · rcases List.mem_append.mp hm with hm2 | hm2
        · exact hco hm2
        · simp at hm2
      · exact hao hm
  have hAnl := vlessLinkLine_no_nl cfg argoDomain
    (replaceSpaces (country ++ [45] ++ asOrg)) hu hc hn hd hispnl
  have hBnl := vmessLinkLine_no_nl cfg argoDomain
    (replaceSpaces (country ++ [45] ++ asOrg))
  have hCnl := trojanLinkLine_no_nl cfg argoDomain
    (replaceSpaces (country ++ [45] ++ asOrg)) hu hc hn hd hispnl
  have h256 := subContent_lt256 cfg argoDomain
    (replaceSpaces (country ++ [45] ++ asOrg)) hu256 hc256 hn256 hd256 hisp256
  refine ⟨b64e (subContent cfg argoDomain (replaceSpaces (country ++ [45] ++ asOrg))),
    subContent cfg argoDomain (replaceSpaces (country ++ [45] ++ asOrg)),
    ?_, ?_, ?_, ?_⟩
  · unfold generateLinks updateFs
    dsimp only
    rw [if_pos rfl]
  · exact b64_roundtrip _ h256
  · rw [nonEmptyLines_subContent cfg argoDomain _ hAnl hBnl hCnl]
    rfl
  · rw [nonEmptyLines_subContent cfg argoDomain _ hAnl hBnl hCnl]
    intro l hl
    simp only [List.mem_cons, List.not_mem_nil, or_false] at hl
    rcases hl with rfl | rfl | rfl
    · exact Or.inl (vless_starts cfg argoDomain _)
    · exact Or.inr (Or.inl (vmess_starts cfg argoDomain _))
    · exact Or.inr (Or.inr (trojan_starts cfg argoDomain _))

theorem c3_witness :
    ((∀ b ∈ baseConfig.UUID, b < 256) ∧ (∀ b ∈ baseConfig.CFIP, b < 256) ∧
      (∀ b ∈ baseConfig.Name, b < 256) ∧
      (∀ b ∈ strToBytes ("foo.trycloudflare.com"), b < 256) ∧
      (∀ b ∈ strToBytes ("US"), b < 256) ∧
      (∀ b ∈ strToBytes ("Great Org"), b < 256) ∧
      (¬ 10 ∈ baseConfig.UUID) ∧ (¬ 10 ∈ baseConfig.CFIP) ∧
      (¬ 10 ∈ baseConfig.Name) ∧ (¬ 10 ∈ strToBytes ("foo.trycloudflare.com")) ∧
      (¬ 10 ∈ strToBytes ("US")) ∧ (¬ 10 ∈ strToBytes ("Great Org"))) ∧
    (∃ enc sub,
      (generateLinks baseConfig (strToBytes ("foo.trycloudflare.com"))
          (IspLookup.ok (strToBytes ("US")) (strToBytes ("Great Org"))) emptyFS).2
          (joinPath baseConfig.FilePath subTxtName) = some enc ∧
      b64dGo enc = some sub ∧
      (nonEmptyLines sub).length = 3 ∧
      ∀ l ∈ nonEmptyLines sub,
        strToBytes ("vless://") <+: l ∨ strToBytes ("vmess://") <+: l ∨
          strToBytes ("trojan://") <+: l) := by
  refine ⟨⟨by decide, by decide, by decide, by decide, by decide, by decide,
    by decide, by decide, by decide, by decide, by decide, by decide⟩, ?_⟩
  exact c3_artifact baseConfig (strToBytes ("foo.trycloudflare.com"))
    (strToBytes ("US")) (strToBytes ("Great Org")) emptyFS (by decide) (by decide)
    (by decide) (by decide) (by decide) (by decide) (by decide) (by decide)
    (by decide) (by decide) (by decide) (by decide)

/-- Configuration whose display name contains a raw newline (bytes
`A`, LF, `B`); the name is spliced verbatim into the vless and trojan
link lines. -/
def c3BadCfg : Config :=
  { baseConfig with
    UUID := strToBytes ("u")
    CFIP := strToBytes ("c")
    Name := [65, 10, 66] }

/-- A configuration refuting C3 as universally stated: with a newline in
the display name, the persisted artifact decodes to a text with five
non-empty lines, not three (the vless and trojan lines are each split in
two by the embedded newline). -/
theorem c3_counterexample :
    (generateLinks c3BadCfg (strToBytes ("d.example"))
        (IspLookup.ok (strToBytes ("US")) (strToBytes ("Org"))) emptyFS).2
        (joinPath c3BadCfg.FilePath subTxtName) =
      some (b64e (subContent c3BadCfg (strToBytes ("d.example"))
        (strToBytes ("US-Org")))) ∧
    b64dGo (b64e (subContent c3BadCfg (strToBytes ("d.example"))
        (strToBytes ("US-Org")))) =
      some (subContent c3BadCfg (strToBytes ("d.example")) (strToBytes ("US-Org"))) ∧
    (nonEmptyLines (subContent c3BadCfg (strToBytes ("d.example"))
        (strToBytes ("US-Org")))).length = 5 := by
  refine ⟨by decide, b64_roundtrip _ (by decide), by decide⟩
